import Mathlib

/-! Verification of the NixOS VM integration-test driver
(src/nixos/lib/test-driver/test-driver.py) against its specification.

The Python code is embedded shallowly: effectful predicates become
functions threading an explicit state, exceptions become Except values,
socket reads become explicit lists of received chunks, and the process
environment and filesystem are reduced to the pieces the properties
mention.  Machine integers do not occur; all counters are Nat. -/

set_option maxRecDepth 10000

namespace TestDriver

/-! ### Retry primitive (test-driver.py, retry, lines 131-142)

The Python loop runs fn(False) up to 900 times, returning on the first
true answer, and after an exhausted budget runs fn(True) once, raising
a timeout exception when that final call is also false.  The predicate
is embedded as a state-passing function whose exception is an
Except.error; the final state is carried in the result so that call
traces stay observable. -/

/-- Outcome of the retry loop: normal return, the timeout exception, or an
exception raised by the predicate itself.  The state after the last call of
the predicate is kept in every case. -/
inductive RetryResult (ε σ : Type) where
  | success : σ → RetryResult ε σ
  | timeout : σ → RetryResult ε σ
  | raised : ε → σ → RetryResult ε σ
  deriving DecidableEq

/-- The retry loop with n budgeted attempts left.  A budgeted attempt calls
the predicate with the last-attempt flag false; once the budget is gone the
predicate runs once with the flag true and a false answer becomes the
timeout outcome. -/
def retryAux {ε σ : Type} (fn : Bool → σ → Except ε Bool × σ) : Nat → σ → RetryResult ε σ
  | 0, s =>
    match fn true s with
    | (Except.error e, s2) => RetryResult.raised e s2
    | (Except.ok true, s2) => RetryResult.success s2
    | (Except.ok false, s2) => RetryResult.timeout s2
  | Nat.succ n, s =>
    match fn false s with
    | (Except.error e, s2) => RetryResult.raised e s2
    | (Except.ok true, s2) => RetryResult.success s2
    | (Except.ok false, s2) => retryAux fn n s2

/-- retry from test-driver.py: a budget of 900 attempts at one second
spacing, then one final flagged attempt.  The sleep between attempts is
not modelled; only the sequence of calls is. -/
def retry {ε σ : Type} (fn : Bool → σ → Except ε Bool × σ) (s : σ) : RetryResult ε σ :=
  retryAux fn 900 s

/-- A pure predicate, indexed by the number of calls already made, wrapped
as a stateful predicate that records the last-attempt flag of every call it
receives.  The state is the list of flags passed so far, so its length is
the number of calls made. -/
def traced (p : Nat → Bool → Bool) (flag : Bool) (calls : List Bool) :
    Except Empty Bool × List Bool :=
  (Except.ok (p calls.length flag), calls ++ [flag])

/-! ### Machine lifecycle state (test-driver.py, Machine)

The flags the lifecycle operations read and write: booted, connected,
pid, plus the list of emulator processes spawned so far (each start that
actually boots appends the spawn parameter).  The blocking input/output
these operations also perform does not touch these fields and is modelled
elsewhere. -/

/-- The lifecycle fields of a Machine: booted and connected flags, the
recorded emulator pid, and the trace of spawned emulator processes. -/
structure MachineState where
  booted : Bool
  connected : Bool
  pid : Option Nat
  spawned : List Nat
  deriving DecidableEq

/-- The lifecycle operations of the claims.  start, connect and execute
carry the identity of the emulator process a spawn would create. -/
inductive MOp where
  | start : Nat → MOp
  | connect : Nat → MOp
  | execute : Nat → MOp
  | shutdown : MOp
  | crash : MOp
  | waitForShutdown : MOp
  deriving DecidableEq

/-- Machine.start (lines 625-703): returns at once when already booted;
otherwise spawns the emulator, records the pid and sets booted. -/
def startStep (s : MachineState) (p : Nat) : MachineState :=
  if s.booted then s
  else { s with booted := true, pid := some p, spawned := s.spawned ++ [p] }

/-- Machine.connect (lines 475-489): returns at once when already
connected; otherwise calls start, reads the shell greeting and sets
connected. -/
def connectStep (s : MachineState) (p : Nat) : MachineState :=
  if s.connected then s
  else { startStep s p with connected := true }

/-- Machine.execute begins with self.connect(); its shell traffic does not
touch the lifecycle fields. -/
def executeStep (s : MachineState) (p : Nat) : MachineState :=
  connectStep s p

/-- Machine.wait_for_shutdown (lines 399-409): returns at once when not
booted; otherwise waits for the emulator to exit and resets pid, booted
and connected. -/
def waitForShutdownStep (s : MachineState) : MachineState :=
  if s.booted then { s with booted := false, connected := false, pid := none } else s

/-- Machine.shutdown: no-op when not booted, else sends poweroff and waits
for shutdown. -/
def shutdownStep (s : MachineState) : MachineState :=
  if s.booted then waitForShutdownStep s else s

/-- Machine.crash: no-op when not booted, else sends quit on the monitor
and waits for shutdown. -/
def crashStep (s : MachineState) : MachineState :=
  if s.booted then waitForShutdownStep s else s

/-- One lifecycle operation applied to the machine state. -/
def step (s : MachineState) : MOp → MachineState
  | MOp.start p => startStep s p
  | MOp.connect p => connectStep s p
  | MOp.execute p => executeStep s p
  | MOp.shutdown => shutdownStep s
  | MOp.crash => crashStep s
  | MOp.waitForShutdown => waitForShutdownStep s

/-- The state Machine.__init__ leaves: not booted, not connected, no pid,
nothing spawned. -/
def initMachine : MachineState :=
  { booted := false, connected := false, pid := none, spawned := [] }

/-- The machine state after a sequence of lifecycle operations on a fresh
machine. -/
def run (ops : List MOp) : MachineState :=
  ops.foldl step initMachine

/-! ### State directory cleanup (test-driver.py, Machine.cleanup_statedir,
lines 705-708)

The filesystem at the state_dir path is reduced to what the guard reads:
absent, a regular file, or a directory. -/

/-- What exists at a path: nothing, a regular file, or a directory. -/
inductive FsKind where
  | file
  | dir
  deriving DecidableEq

/-- os.path.isfile: true only for a regular file, false for a directory or
a missing path. -/
def isfile : Option FsKind → Bool
  | some FsKind.file => true
  | _ => false

/-- shutil.rmtree: removes a directory tree; on a plain file or a missing
path it raises. -/
def rmtree : Option FsKind → Except Unit (Option FsKind)
  | some FsKind.dir => Except.ok none
  | _ => Except.error ()

/-- Machine.cleanup_statedir as written: rmtree guarded by
os.path.isfile(state_dir). -/
def cleanup_statedir (st : Option FsKind) : Except Unit (Option FsKind) :=
  if isfile st then rmtree st else Except.ok st

/-- The intended behavior the spec states for cleanup_statedir: delete the
state directory tree if it exists, so nothing remains at the path. -/
def cleanup_statedir_spec : Option FsKind → Option FsKind
  | some _ => none
  | none => none

/-! ### VLAN ids and switch environment keys (test-driver.py, main,
lines 857-860)

main splits the VLANS environment variable on whitespace, removes
duplicates keeping the first occurrence (dict.fromkeys), starts one
switch per remaining id and publishes QEMU_VDE_SOCKET_<nr> for each. -/

/-- The whitespace characters of the Python str.split default and of the
regex class backslash-s, restricted to ASCII. -/
def isSpaceChar (c : Char) : Bool :=
  c == ' ' || c == '\t' || c == '\n' || c == '\r' || c == '\x0b' || c == '\x0c'

/-- Helper of pySplit: acc holds the current word reversed. -/
def pySplitAux (acc : List Char) : List Char → List (List Char)
  | [] => if acc = [] then [] else [acc.reverse]
  | c :: cs =>
    if isSpaceChar c then
      if acc = [] then pySplitAux [] cs else acc.reverse :: pySplitAux [] cs
    else pySplitAux (c :: acc) cs

/-- Python str.split() with no argument: split on runs of whitespace,
producing no empty words. -/
def pySplit (l : List Char) : List (List Char) :=
  pySplitAux [] l

/-- Helper of dedupFirst: drops every element already seen, mirroring
dict.fromkeys insertion order. -/
def dedupFirstAux {α : Type} [DecidableEq α] (seen : List α) : List α → List α
  | [] => []
  | x :: xs => if x ∈ seen then dedupFirstAux seen xs else x :: dedupFirstAux (x :: seen) xs

/-- list(dict.fromkeys(l)): duplicates removed, first occurrence kept. -/
def dedupFirst {α : Type} [DecidableEq α] (l : List α) : List α :=
  dedupFirstAux [] l

/-- vlan_nrs of main: the distinct VLAN ids of the VLANS variable, first
occurrences kept in order.  One switch is started per entry. -/
def vlan_nrs (vlans : List Char) : List (List Char) :=
  dedupFirst (pySplit vlans)

/-- The environment key published for one VLAN id. -/
def qemuVdeSocketKey (nr : List Char) : List Char :=
  "QEMU_VDE_SOCKET_".toList ++ nr

/-- The environment keys main sets, one per started switch. -/
def vdeEnvKeys (vlans : List Char) : List (List Char) :=
  (vlan_nrs vlans).map qemuVdeSocketKey

/-! ### Shell RPC framing (test-driver.py, Machine.execute, lines 326-342)

execute sends the wrapped command and then loops: receive a chunk, decode
it, regex-match it from its start, and either return the matched groups or
append the whole chunk to the output.  The regex is
open-group dot-star close-group, the literal sentinel, backslash-s plus,
and a group of backslash-d plus; re.match anchors at the start of the
chunk, dot does not cross a newline, and the dot-star group is greedy. -/

/-- The framing sentinel of the shell channel. -/
def sentinel : List Char := ['|', '!', '=', 'E', 'O', 'F']

/-- ASCII decimal digit, the regex class backslash-d restricted to ASCII. -/
def isDigitChar (c : Char) : Bool :=
  '0' ≤ c && c ≤ '9'

/-- int() of a decimal digit string. -/
def digitsToNat (d : List Char) : Nat :=
  d.foldl (fun acc c => acc * 10 + (c.toNat - '0'.toNat)) 0

/-- After the sentinel the regex requires one or more whitespace characters
and then captures one or more digits; both quantifiers are effectively
maximal because whitespace and digits are disjoint. -/
def readStatus (r : List Char) : Option (List Char) :=
  if r.takeWhile isSpaceChar = [] then none
  else if (r.dropWhile isSpaceChar).takeWhile isDigitChar = [] then none
  else some ((r.dropWhile isSpaceChar).takeWhile isDigitChar)

/-- The anchored greedy match of the status regex against one chunk:
the greedy dot-star prefers the rightmost sentinel occurrence on the first
line that is followed by whitespace and digits; the prefix before it is
group one, the digits group two.  none when the chunk has no such
occurrence. -/
def findMatch : List Char → Option (List Char × List Char)
  | [] => none
  | c :: cs =>
    if c = '\n' then none
    else
      match findMatch cs with
      | some (p, d) => some (c :: p, d)
      | none =>
        if sentinel.isPrefixOf (c :: cs) then
          match readStatus (List.drop sentinel.length (c :: cs)) with
          | some d => some ([], d)
          | none => none
        else none

/-- Concatenation of a list of chunks. -/
def joinList {α : Type} : List (List α) → List α
  | [] => []
  | l :: ls => l ++ joinList ls

/-- The receive loop of execute: each chunk is matched from its start; on a
match the group-one prefix joins the output and the digits become the exit
status; otherwise the whole chunk joins the output.  none models a loop
that never returns because the chunk stream ends. -/
def executeLoop : List (List Char) → List Char → Option (Nat × List Char)
  | [], _ => none
  | chunk :: rest, output =>
    match findMatch chunk with
    | some (p, d) => some (digitsToNat d, output ++ p)
    | none => executeLoop rest (output ++ chunk)

/-- Machine.execute restricted to its response parsing, as a function of
the sequence of chunks the shell socket delivers: the returned pair is
(guest exit status, collected output). -/
def execute (chunks : List (List Char)) : Option (Nat × List Char) :=
  executeLoop chunks []

/-! ### Monitor prompt (test-driver.py, Machine.wait_for_monitor_prompt,
lines 231-241)

The loop receives up to 1024 bytes at a time; an empty read breaks out at
once, otherwise the decoded chunk joins the answer and the loop ends when
the answer ends with the prompt. -/

/-- The literal qemu monitor prompt. -/
def qemuPrompt : List Char := ['(', 'q', 'e', 'm', 'u', ')', ' ']

/-- Machine.wait_for_monitor_prompt as a function of the received chunks:
an empty chunk is an empty recv (peer closed) and returns the answer so
far; otherwise the chunk is appended and the loop returns once the answer
ends with the prompt.  none models a loop that never returns. -/
def wait_for_monitor_prompt : List (List Char) → List Char → Option (List Char)
  | [], _ => none
  | chunk :: rest, answer =>
    if chunk = [] then some answer
    else if qemuPrompt.isSuffixOf (answer ++ chunk) then some (answer ++ chunk)
    else wait_for_monitor_prompt rest (answer ++ chunk)

/-! ### wait_for_unit (test-driver.py, Machine.wait_for_unit, lines 250-275)

check_active polls get_unit_info; the guest is an oracle giving the
ActiveState of the k-th get_unit_info call and the output of the k-th
list-jobs query.  The state threaded through retry is the pair of call
counters (info calls, jobs calls). -/

/-- The two exceptions check_active raises. -/
inductive UnitError where
  | reachedFailed
  | inactiveNoJobs
  deriving DecidableEq

/-- Whether needle occurs as a contiguous run inside hay. -/
def hasInfix (needle : List Char) : List Char → Bool
  | [] => needle.isPrefixOf []
  | c :: cs => needle.isPrefixOf (c :: cs) || hasInfix needle cs

/-- The Python expression needle in hay on strings. -/
def strContains (hay needle : String) : Bool :=
  hasInfix needle.toList hay.toList

/-- check_active of wait_for_unit: reads the ActiveState; raises on failed;
on inactive asks for pending jobs and, when the answer contains No jobs
and a re-read still says inactive, raises; otherwise answers whether the
state read first equals active.  infoSeq gives the k-th ActiveState read,
jobsSeq the k-th list-jobs output; the counters advance per call made. -/
def check_active (infoSeq jobsSeq : Nat → String) (_last : Bool) (s : Nat × Nat) :
    Except UnitError Bool × (Nat × Nat) :=
  if infoSeq s.1 = "failed" then
    (Except.error UnitError.reachedFailed, (s.1 + 1, s.2))
  else if infoSeq s.1 = "inactive" then
    if strContains (jobsSeq s.2) "No jobs" then
      if infoSeq (s.1 + 1) = infoSeq s.1 then
        (Except.error UnitError.inactiveNoJobs, (s.1 + 2, s.2 + 1))
      else (Except.ok (infoSeq s.1 == "active"), (s.1 + 2, s.2 + 1))
    else (Except.ok (infoSeq s.1 == "active"), (s.1 + 1, s.2 + 1))
  else (Except.ok (infoSeq s.1 == "active"), (s.1 + 1, s.2))

/-- Machine.wait_for_unit: retry over check_active, starting with no calls
made. -/
def wait_for_unit (infoSeq jobsSeq : Nat → String) : RetryResult UnitError (Nat × Nat) :=
  retry (check_active infoSeq jobsSeq) (0, 0)

/-! ## Theorems -/

/-! ### Retry lemmas -/

/-- A budgeted attempt that answers false steps the loop to the next
attempt. -/
theorem retryAux_succ_false {ε σ : Type} (fn : Bool → σ → Except ε Bool × σ)
    (n : Nat) (s s2 : σ) (h : fn false s = (Except.ok false, s2)) :
    retryAux fn (Nat.succ n) s = retryAux fn n s2 := by
  simp [retryAux, h]

/-- A budgeted attempt that answers true ends the loop with success. -/
theorem retryAux_succ_true {ε σ : Type} (fn : Bool → σ → Except ε Bool × σ)
    (n : Nat) (s s2 : σ) (h : fn false s = (Except.ok true, s2)) :
    retryAux fn (Nat.succ n) s = RetryResult.success s2 := by
  simp [retryAux, h]

/-- The final flagged attempt answering true returns normally. -/
theorem retryAux_zero_true {ε σ : Type} (fn : Bool → σ → Except ε Bool × σ)
    (s s2 : σ) (h : fn true s = (Except.ok true, s2)) :
    retryAux fn 0 s = RetryResult.success s2 := by
  simp [retryAux, h]

/-- The final flagged attempt answering false raises the timeout. -/
theorem retryAux_zero_false {ε σ : Type} (fn : Bool → σ → Except ε Bool × σ)
    (s s2 : σ) (h : fn true s = (Except.ok false, s2)) :
    retryAux fn 0 s = RetryResult.timeout s2 := by
  simp [retryAux, h]

/-- A call that answers true ends the loop with success at any remaining
budget, the flag notwithstanding. -/
theorem retryAux_any_true {ε σ : Type} (fn : Bool → σ → Except ε Bool × σ)
    (m : Nat) (s s2 : σ) (h : ∀ b, fn b s = (Except.ok true, s2)) :
    retryAux fn m s = RetryResult.success s2 := by
  cases m with
  | zero => exact retryAux_zero_true fn s s2 (h true)
  | succ m => exact retryAux_succ_true fn m s s2 (h false)

/-- A call that raises propagates the exception at any remaining budget. -/
theorem retryAux_any_raised {ε σ : Type} (fn : Bool → σ → Except ε Bool × σ)
    (m : Nat) (s s2 : σ) (e : ε) (h : ∀ b, fn b s = (Except.error e, s2)) :
    retryAux fn m s = RetryResult.raised e s2 := by
  cases m with
  | zero => simp [retryAux, h true]
  | succ m => simp [retryAux, h false]

/-- Skipping a run of false-answering budgeted attempts: when the state
follows a trajectory f along which the predicate answers false, n attempts
consume n units of budget and move the state to f n. -/
theorem retryAux_skip {ε σ : Type} (fn : Bool → σ → Except ε Bool × σ) :
    ∀ (n m : Nat) (f : Nat → σ), n ≤ m →
      (∀ k, k < n → fn false (f k) = (Except.ok false, f (k + 1))) →
      retryAux fn m (f 0) = retryAux fn (m - n) (f n) := by
  intro n
  induction n with
  | zero => intro m f _ _; rfl
  | succ n ih =>
    intro m f hm hsteps
    cases m with
    | zero => omega
    | succ m =>
      rw [retryAux_succ_false fn m (f 0) (f 1) (hsteps 0 (Nat.succ_pos n))]
      have := ih m (fun k => f (k + 1)) (Nat.le_of_succ_le_succ hm)
        (fun k hk => hsteps (k + 1) (Nat.succ_lt_succ hk))
      simpa [Nat.succ_sub_succ] using this

/-- One traced call: the flag is recorded and the pure predicate is read at
the current call count. -/
theorem traced_eq (p : Nat → Bool → Bool) (flag : Bool) (calls : List Bool) :
    traced p flag calls = (Except.ok (p calls.length flag), calls ++ [flag]) := rfl

/-- The trajectory of a traced predicate that keeps answering false. -/
theorem traced_skip (p : Nat → Bool → Bool) (n : Nat) (m : Nat) (hm : n ≤ m)
    (h : ∀ i, i < n → p i false = false) :
    retryAux (traced p) m [] = retryAux (traced p) (m - n) (List.replicate n false) := by
  have := retryAux_skip (traced p) n m (fun k => List.replicate k false) hm ?_
  · simpa using this
  · intro k hk
    rw [traced_eq]
    simp [h k hk, List.replicate_succ' k]

/-! ### Claim C1 and Claim C9: the retry budget -/

/-- Claim C1, amended.  For every predicate, retry calls it with the
last-attempt flag false up to 900 times and returns success as soon as a
call answers true, the recorded trace being the flag-false calls made; and
when all 900 budgeted calls answer false, retry calls the predicate exactly
once more with the flag set and, when that final call also answers false,
fails with the timeout error, the trace being 900 flag-false calls followed
by one flagged call. -/
theorem retry_timeout_on_final_false (p : Nat → Bool → Bool) :
    (∀ j, j < 900 → (∀ i, i < j → p i false = false) → p j false = true →
      retry (traced p) [] = RetryResult.success (List.replicate (j + 1) false)) ∧
    ((∀ i, i < 900 → p i false = false) → p 900 true = false →
      retry (traced p) [] = RetryResult.timeout (List.replicate 900 false ++ [true])) := by
  constructor
  · intro j hj hmin hj1
    rw [retry, traced_skip p j 900 (Nat.le_of_lt hj) hmin]
    obtain ⟨m, hm⟩ : ∃ m, 900 - j = m + 1 := ⟨900 - j - 1, by omega⟩
    rw [hm]
    apply retryAux_succ_true
    rw [traced_eq]
    simp [hj1, List.replicate_succ' j]
  · intro hall h900
    rw [retry, traced_skip p 900 900 (Nat.le_refl 900) hall]
    apply retryAux_zero_false
    rw [traced_eq]
    simp [h900]

/-- Witness for C1 at concrete predicates: the always-false predicate times
out after the 900 budgeted calls and the flagged call, and the always-true
predicate succeeds on the first call. -/
theorem retry_timeout_on_final_false_witness :
    retry (traced (fun _ _ => false)) [] =
      RetryResult.timeout (List.replicate 900 false ++ [true]) ∧
    retry (traced (fun _ _ => true)) [] =
      RetryResult.success (List.replicate 1 false) :=
  ⟨(retry_timeout_on_final_false (fun _ _ => false)).2 (fun _ _ => rfl) rfl,
   (retry_timeout_on_final_false (fun _ _ => true)).1 0 (by decide)
     (fun i hi => absurd hi (Nat.not_lt_zero i)) rfl⟩

/-- Counterexample to C1 as stated.  The predicate that returns its own
last-attempt flag answers false on every one of the 900 budgeted calls, yet
retry returns success rather than failing with a timeout error, because the
final flagged call answers true; the claim asserts a timeout whenever all
900 budgeted attempts return false. -/
theorem retry_cex_flagged_call_succeeds :
    retry (traced (fun _ b => b)) [] =
      RetryResult.success (List.replicate 900 false ++ [true]) := by
  rw [retry, traced_skip (fun _ b => b) 900 900 (Nat.le_refl 900) (fun _ _ => rfl)]
  apply retryAux_zero_true
  rw [traced_eq]

/-- Claim C9: when all 900 budgeted calls answer false but the single final
flagged call answers true, retry returns normally, with no timeout
error. -/
theorem retry_success_on_flagged_attempt (p : Nat → Bool → Bool)
    (h : ∀ i, i < 900 → p i false = false) (hl : p 900 true = true) :
    retry (traced p) [] = RetryResult.success (List.replicate 900 false ++ [true]) := by
  rw [retry, traced_skip p 900 900 (Nat.le_refl 900) h]
  apply retryAux_zero_true
  rw [traced_eq]
  simp [hl]

/-- Witness for C9: a predicate answering false on the budgeted calls and
true on the flagged one. -/
theorem retry_success_on_flagged_attempt_witness :
    retry (traced (fun i _ => decide (900 ≤ i))) [] =
      RetryResult.success (List.replicate 900 false ++ [true]) :=
  retry_success_on_flagged_attempt (fun i _ => decide (900 ≤ i))
    (fun i hi => decide_eq_false (by omega)) (decide_eq_true (Nat.le_refl 900))

/-! ### Claims C4, C7, C10: machine lifecycle -/

/-- Every lifecycle operation preserves the implication from connected to
booted. -/
theorem step_preserves_conn_booted (s : MachineState) (op : MOp)
    (h : s.connected = true → s.booted = true) :
    (step s op).connected = true → (step s op).booted = true := by
  cases op <;>
    simp only [step, startStep, connectStep, executeStep, shutdownStep, crashStep,
      waitForShutdownStep] <;>
    split_ifs <;> simp_all

/-- The implication from connected to booted survives any operation
sequence. -/
theorem foldl_preserves_conn_booted (ops : List MOp) : ∀ s : MachineState,
    (s.connected = true → s.booted = true) →
    ((ops.foldl step s).connected = true → (ops.foldl step s).booted = true) := by
  induction ops with
  | nil => intro s h; simpa using h
  | cons op rest ih =>
    intro s h
    simpa using ih (step s op) (step_preserves_conn_booted s op h)

/-- Claim C4: after every sequence of lifecycle operations on a fresh
machine, connected implies booted. -/
theorem connected_implies_booted (ops : List MOp)
    (h : (run ops).connected = true) : (run ops).booted = true :=
  foldl_preserves_conn_booted ops initMachine (by decide) h

/-- Witness for C4: after a connect, the machine is connected and hence
booted. -/
theorem connected_implies_booted_witness :
    (run [MOp.connect 0]).connected = true ∧ (run [MOp.connect 0]).booted = true :=
  ⟨by decide, connected_implies_booted [MOp.connect 0] (by decide)⟩

/-- Claim C7: start is idempotent; a second start, with any spawn
parameter, leaves the machine state, the spawn trace included, exactly as
one start left it, because the second call returns at once on the booted
flag. -/
theorem start_idempotent (s : MachineState) (p q : Nat) :
    step (step s (MOp.start p)) (MOp.start q) = step s (MOp.start p) := by
  cases hb : s.booted <;> simp [step, startStep, hb]

/-- Claim C10: wait_for_shutdown on a machine that is not booted returns
at once and changes nothing: booted, connected, pid and the spawn trace
are untouched. -/
theorem wait_for_shutdown_noop_when_not_booted (s : MachineState)
    (h : s.booted = false) : step s MOp.waitForShutdown = s := by
  simp [step, waitForShutdownStep, h]

/-- Witness for C10 at the freshly constructed machine. -/
theorem wait_for_shutdown_noop_witness :
    step initMachine MOp.waitForShutdown = initMachine :=
  wait_for_shutdown_noop_when_not_booted initMachine rfl

/-! ### Claim C5: cleanup_statedir -/

/-- Claim C5 is a code bug.  The state directory is created by os.makedirs,
so it is a directory; os.path.isfile answers false on it, the rmtree is
skipped, and cleanup_statedir leaves the directory in place, while the
specified intent deletes the tree.  (On the impossible file case the guard
passes but shutil.rmtree itself raises.) -/
theorem cleanup_statedir_keeps_directory :
    cleanup_statedir (some FsKind.dir) = Except.ok (some FsKind.dir) ∧
    cleanup_statedir_spec (some FsKind.dir) = none ∧
    cleanup_statedir (some FsKind.file) = Except.error () :=
  ⟨rfl, rfl, rfl⟩

/-! ### Claim C6: VLAN ids -/

/-- dedupFirstAux keeps a subsequence of its input, in order. -/
theorem dedupFirstAux_sublist {α : Type} [DecidableEq α] (l : List α) :
    ∀ seen : List α, List.Sublist (dedupFirstAux seen l) l := by
  induction l with
  | nil => intro seen; simp [dedupFirstAux]
  | cons x xs ih =>
    intro seen
    rw [dedupFirstAux]
    split_ifs with h
    · exact List.Sublist.cons x (ih seen)
    · exact List.Sublist.cons₂ x (ih (x :: seen))

/-- Membership in dedupFirstAux: the elements of the input not already
seen. -/
theorem mem_dedupFirstAux {α : Type} [DecidableEq α] (y : α) (l : List α) :
    ∀ seen : List α, y ∈ dedupFirstAux seen l ↔ (y ∈ l ∧ y ∉ seen) := by
  induction l with
  | nil => intro seen; simp [dedupFirstAux]
  | cons x xs ih =>
    intro seen
    rw [dedupFirstAux]
    split_ifs with h
    · rw [ih seen]
      constructor
      · exact fun hy => ⟨List.mem_cons_of_mem x hy.1, hy.2⟩
      · rintro ⟨h1, h2⟩
        rcases List.mem_cons.mp h1 with h3 | h3
        · exact absurd (by rw [h3]; exact h) h2
        · exact ⟨h3, h2⟩
    · constructor
      · intro hy
        rcases List.mem_cons.mp hy with h3 | h3
        · subst h3; exact ⟨List.mem_cons_self y xs, fun hc => h hc⟩
        · have := (ih (x :: seen)).mp h3
          exact ⟨List.mem_cons_of_mem x this.1,
            fun hc => this.2 (List.mem_cons_of_mem x hc)⟩
      · rintro ⟨h1, h2⟩
        by_cases hyx : y = x
        · subst hyx; exact List.mem_cons_self y _
        · rcases List.mem_cons.mp h1 with h3 | h3
          · exact absurd h3 hyx
          · exact List.mem_cons_of_mem x ((ih (x :: seen)).mpr
              ⟨h3, fun hc => (List.mem_cons.mp hc).elim hyx h2⟩)

/-- dedupFirstAux produces no duplicates. -/
theorem dedupFirstAux_nodup {α : Type} [DecidableEq α] (l : List α) :
    ∀ seen : List α, (dedupFirstAux seen l).Nodup := by
  induction l with
  | nil => intro seen; simp [dedupFirstAux]
  | cons x xs ih =>
    intro seen
    rw [dedupFirstAux]
    split_ifs with h
    · exact ih seen
    · refine List.nodup_cons.mpr ⟨fun hc => ?_, ih (x :: seen)⟩
      exact ((mem_dedupFirstAux x xs (x :: seen)).mp hc).2 (List.mem_cons_self x seen)

/-- Claim C6: the started switches are one per distinct VLAN id of the
VLANS variable; vlan_nrs has no duplicates, is an in-order subsequence of
the split list with the same members, and on the concrete input 1 2 1
exactly the two ids 1 and 2 remain, first occurrences first, with the two
environment keys QEMU_VDE_SOCKET_1 and QEMU_VDE_SOCKET_2 published. -/
theorem vlan_dedup_and_env_keys :
    (∀ v : List Char, (vlan_nrs v).Nodup ∧ List.Sublist (vlan_nrs v) (pySplit v) ∧
      ∀ x, x ∈ vlan_nrs v ↔ x ∈ pySplit v) ∧
    vlan_nrs ("1 2 1".toList) = [['1'], ['2']] ∧
    (vlan_nrs ("1 2 1".toList)).length = 2 ∧
    vdeEnvKeys ("1 2 1".toList) =
      ["QEMU_VDE_SOCKET_1".toList, "QEMU_VDE_SOCKET_2".toList] := by
  refine ⟨fun v => ⟨dedupFirstAux_nodup (pySplit v) [],
    dedupFirstAux_sublist (pySplit v) [], fun x => ?_⟩, by decide, by decide, by decide⟩
  rw [vlan_nrs, dedupFirst, mem_dedupFirstAux]
  simp

/-! ### Claim C8: monitor prompt -/

/-- The monitor read loop, started from any accumulated answer: when no
received chunk is empty, a returned answer ends with the prompt and is the
accumulated answer followed by the consumed prefix of the chunk stream. -/
theorem wait_for_monitor_prompt_sound :
    ∀ (chunks : List (List Char)) (acc ans : List Char),
      (∀ c, c ∈ chunks → c ≠ []) →
      wait_for_monitor_prompt chunks acc = some ans →
      qemuPrompt.isSuffixOf ans = true ∧
      ∃ pre post, chunks = pre ++ post ∧ ans = acc ++ joinList pre := by
  intro chunks
  induction chunks with
  | nil => intro acc ans _ h; simp [wait_for_monitor_prompt] at h
  | cons c cs ih =>
    intro acc ans hne h
    have hc : ¬(c = []) := hne c (List.mem_cons_self c cs)
    rw [wait_for_monitor_prompt, if_neg hc] at h
    by_cases hs : qemuPrompt.isSuffixOf (acc ++ c) = true
    · rw [if_pos hs] at h
      injection h with h
      subst h
      exact ⟨hs, [c], cs, rfl, by simp [joinList]⟩
    · rw [if_neg hs] at h
      obtain ⟨hsuf, pre, post, hchunks, hans⟩ :=
        ih (acc ++ c) ans (fun d hd => hne d (List.mem_cons_of_mem c hd)) h
      exact ⟨hsuf, c :: pre, post, by rw [hchunks]; rfl,
        by rw [hans]; simp [joinList]⟩

/-- Claim C8, amended.  When every read delivers at least one byte, the
loop concatenates chunks until the accumulated buffer ends with the
literal prompt, and returns that accumulated string, prompt included.
(When a read returns no bytes, the loop instead returns the buffer as is,
possibly without the prompt; see the counterexample.) -/
theorem monitor_prompt_spec (chunks : List (List Char)) (ans : List Char)
    (hne : ∀ c, c ∈ chunks → c ≠ [])
    (h : wait_for_monitor_prompt chunks [] = some ans) :
    qemuPrompt.isSuffixOf ans = true ∧
    ∃ pre post, chunks = pre ++ post ∧ ans = joinList pre := by
  obtain ⟨h1, pre, post, h2, h3⟩ :=
    wait_for_monitor_prompt_sound chunks [] ans hne h
  exact ⟨h1, pre, post, h2, by simpa using h3⟩

/-- Witness for C8 at a one-chunk response consisting of the prompt. -/
theorem monitor_prompt_spec_witness :
    qemuPrompt.isSuffixOf qemuPrompt = true ∧
    ∃ pre post, ([qemuPrompt] : List (List Char)) = pre ++ post ∧
      qemuPrompt = joinList pre :=
  monitor_prompt_spec [qemuPrompt] qemuPrompt
    (by intro c hc; rw [List.mem_singleton] at hc; subst hc; decide)
    (by decide)

/-- Counterexample to C8 as stated: an empty read (closed connection)
makes the loop return an accumulated string that does not end with the
prompt, while the claim asserts the returned string always includes the
prompt. -/
theorem monitor_prompt_cex_eof_return :
    wait_for_monitor_prompt [['h', 'i'], []] [] = some ['h', 'i'] ∧
    qemuPrompt.isSuffixOf ['h', 'i'] = false := by
  decide

/-! ### Claim C2: shell RPC framing -/

/-- A true isPrefixOf splits the longer list. -/
theorem isPrefixOf_append : ∀ l t : List Char, l.isPrefixOf t = true → ∃ r, t = l ++ r := by
  intro l
  induction l with
  | nil => intro t _; exact ⟨t, rfl⟩
  | cons a as ih =>
    intro t h
    cases t with
    | nil => simp [List.isPrefixOf] at h
    | cons b bs =>
      simp only [List.isPrefixOf, Bool.and_eq_true, beq_iff_eq] at h
      obtain ⟨r, hr⟩ := ih bs h.2
      exact ⟨r, by rw [h.1, hr]; rfl⟩

/-- What a successful readStatus says about its input: a nonempty
whitespace run, then the nonempty digit group, then the rest. -/
theorem readStatus_sound (r d : List Char) (h : readStatus r = some d) :
    ∃ w rest, r = w ++ (d ++ rest) ∧ w ≠ [] ∧
      (∀ c, c ∈ w → isSpaceChar c = true) ∧ d ≠ [] ∧
      (∀ c, c ∈ d → isDigitChar c = true) := by
  rw [readStatus] at h
  by_cases hw : r.takeWhile isSpaceChar = []
  · rw [if_pos hw] at h; cases h
  · rw [if_neg hw] at h
    by_cases hd : (r.dropWhile isSpaceChar).takeWhile isDigitChar = []
    · rw [if_pos hd] at h; cases h
    · rw [if_neg hd] at h
      injection h with h
      subst h
      refine ⟨r.takeWhile isSpaceChar,
        (r.dropWhile isSpaceChar).dropWhile isDigitChar, ?_, hw, ?_, hd, ?_⟩
      · rw [List.takeWhile_append_dropWhile, List.takeWhile_append_dropWhile]
      · intro c hc; exact List.mem_takeWhile_imp hc
      · intro c hc; exact List.mem_takeWhile_imp hc

/-- What a successful findMatch says about the chunk: the group-one prefix
contains no newline and is followed by the sentinel, a nonempty whitespace
run, the nonempty digit group, and the rest of the chunk. -/
theorem findMatch_sound :
    ∀ (l p d : List Char), findMatch l = some (p, d) →
      ('\n' ∉ p) ∧
      ∃ w rest, l = p ++ (sentinel ++ (w ++ (d ++ rest))) ∧ w ≠ [] ∧
        (∀ c, c ∈ w → isSpaceChar c = true) ∧ d ≠ [] ∧
        (∀ c, c ∈ d → isDigitChar c = true) := by
  intro l
  induction l with
  | nil => intro p d h; simp [findMatch] at h
  | cons c cs ih =>
    intro p d h
    rw [findMatch] at h
    by_cases hnl : c = '\n'
    · rw [if_pos hnl] at h; cases h
    · rw [if_neg hnl] at h
      rcases hfm : findMatch cs with _ | ⟨p1, d1⟩
      · rw [hfm] at h
        by_cases hpre : sentinel.isPrefixOf (c :: cs) = true
        · rw [hpre] at h
          rcases hrs : readStatus (List.drop sentinel.length (c :: cs)) with _ | d2
          · rw [hrs] at h; cases h
          · rw [hrs] at h
            injection h with h
            injection h with h1 h2
            subst h1; subst h2
            obtain ⟨t, ht⟩ := isPrefixOf_append sentinel (c :: cs) hpre
            rw [ht, List.drop_left sentinel t] at hrs
            obtain ⟨w, rest, hdec, hw, hws, hd, hds⟩ := readStatus_sound t d2 hrs
            refine ⟨by simp, w, rest, ?_, hw, hws, hd, hds⟩
            rw [ht, hdec]
            rfl
        · rw [Bool.of_not_eq_true hpre] at h; cases h
      · rw [hfm] at h
        injection h with h
        injection h with h1 h2
        subst h1; subst h2
        obtain ⟨hnl1, w, rest, hdec, hw, hws, hd, hds⟩ := ih p1 d1 hfm
        refine ⟨?_, w, rest, by rw [List.cons_append, hdec], hw, hws, hd, hds⟩
        intro hc
        rcases List.mem_cons.mp hc with h3 | h3
        · exact hnl (h3.symm)
        · exact hnl1 h3

/-- The receive loop of execute, from any accumulated output: a returned
pair splits the chunk stream at the first matching chunk; the output is
the accumulated output, the earlier chunks whole, and the group-one prefix
of the matching chunk; the status is the digit group read as a number. -/
theorem executeLoop_sound :
    ∀ (chunks : List (List Char)) (acc out : List Char) (st : Nat),
      executeLoop chunks acc = some (st, out) →
      ∃ pre m post p d, chunks = pre ++ m :: post ∧
        (∀ c, c ∈ pre → findMatch c = none) ∧
        findMatch m = some (p, d) ∧ out = acc ++ (joinList pre ++ p) ∧
        st = digitsToNat d := by
  intro chunks
  induction chunks with
  | nil => intro acc out st h; simp [executeLoop] at h
  | cons ch rest ih =>
    intro acc out st h
    rw [executeLoop] at h
    rcases hfm : findMatch ch with _ | ⟨p, d⟩
    · rw [hfm] at h
      obtain ⟨pre, m, post, p, d, hc, hpre, hm, hout, hst⟩ := ih (acc ++ ch) out st h
      refine ⟨ch :: pre, m, post, p, d, by rw [hc]; rfl, ?_, hm, ?_, hst⟩
      · intro c hcm
        rcases List.mem_cons.mp hcm with h3 | h3
        · rw [h3]; exact hfm
        · exact hpre c h3
      · rw [hout]; simp [joinList]
    · rw [hfm] at h
      injection h with h
      injection h with h1 h2
      refine ⟨[], ch, rest, p, d, rfl, by simp, hfm, ?_, h1.symm⟩
      rw [← h2]; simp [joinList]

/-- Claim C2, amended.  Whenever execute returns, the guest response was
delimited by the status regex matched against the most recently received
chunk: the earlier chunks do not match, the matching chunk is the group-one
prefix (newline-free, possibly with sentinel occurrences of its own),
then the sentinel, whitespace, the digit group and a remainder; the
returned output is the earlier chunks followed by that prefix, and the
returned status is the digit group read as a number.  The output is not,
in general, sentinel-free; the counterexample shows it containing the
sentinel. -/
theorem execute_framing (chunks : List (List Char)) (st : Nat) (out : List Char)
    (h : execute chunks = some (st, out)) :
    ∃ pre m post p d w rest,
      chunks = pre ++ m :: post ∧
      (∀ c, c ∈ pre → findMatch c = none) ∧
      findMatch m = some (p, d) ∧
      m = p ++ (sentinel ++ (w ++ (d ++ rest))) ∧
      w ≠ [] ∧ (∀ c, c ∈ w → isSpaceChar c = true) ∧
      d ≠ [] ∧ (∀ c, c ∈ d → isDigitChar c = true) ∧
      ('\n' ∉ p) ∧
      out = joinList pre ++ p ∧ st = digitsToNat d := by
  obtain ⟨pre, m, post, p, d, hc, hpre, hm, hout, hst⟩ :=
    executeLoop_sound chunks [] out st h
  obtain ⟨hnl, w, rest, hdec, hw, hws, hd, hds⟩ := findMatch_sound m p d hm
  exact ⟨pre, m, post, p, d, w, rest, hc, hpre, hm, hdec, hw, hws, hd, hds, hnl,
    by simpa using hout, hst⟩

/-- Witness for C2 at the concrete response hi, sentinel, space, zero. -/
theorem execute_framing_witness :
    ∃ pre m post p d w rest,
      (["hi|!=EOF 0".toList] : List (List Char)) = pre ++ m :: post ∧
      (∀ c, c ∈ pre → findMatch c = none) ∧
      findMatch m = some (p, d) ∧
      m = p ++ (sentinel ++ (w ++ (d ++ rest))) ∧
      w ≠ [] ∧ (∀ c, c ∈ w → isSpaceChar c = true) ∧
      d ≠ [] ∧ (∀ c, c ∈ d → isDigitChar c = true) ∧
      ('\n' ∉ p) ∧
      "hi".toList = joinList pre ++ p ∧ (0 : Nat) = digitsToNat d :=
  execute_framing ["hi|!=EOF 0".toList] 0 "hi".toList (by decide)

/-- Counterexample to C2 as stated: a guest that prints the sentinel
mid-output makes execute return an output containing the sentinel, while
the claim asserts the returned output never contains it. -/
theorem execute_cex_output_contains_sentinel :
    execute ["x|!=EOFy\n".toList, "|!=EOF 0".toList] =
      some (0, "x|!=EOFy\n".toList) ∧
    hasInfix sentinel ("x|!=EOFy\n".toList) = true := by
  decide

/-! ### Claim C3: wait_for_unit -/

/-- One poll that reads activating: one info call, answer false. -/
theorem check_active_activating (infoSeq jobsSeq : Nat → String) (b : Bool) (c j : Nat)
    (h : infoSeq c = "activating") :
    check_active infoSeq jobsSeq b (c, j) = (Except.ok false, (c + 1, j)) := by
  simp [check_active, h]

/-- One poll that reads active: one info call, answer true. -/
theorem check_active_active (infoSeq jobsSeq : Nat → String) (b : Bool) (c j : Nat)
    (h : infoSeq c = "active") :
    check_active infoSeq jobsSeq b (c, j) = (Except.ok true, (c + 1, j)) := by
  simp [check_active, h]

/-- One poll that reads failed raises at once. -/
theorem check_active_failed (infoSeq jobsSeq : Nat → String) (b : Bool) (c j : Nat)
    (h : infoSeq c = "failed") :
    check_active infoSeq jobsSeq b (c, j) =
      (Except.error UnitError.reachedFailed, (c + 1, j)) := by
  simp [check_active, h]

/-- One poll that reads inactive, finds no pending jobs and re-reads
inactive raises; it makes two info calls and one jobs call. -/
theorem check_active_inactive_nojobs (infoSeq jobsSeq : Nat → String) (b : Bool) (c j : Nat)
    (h : infoSeq c = "inactive") (hj : strContains (jobsSeq j) "No jobs" = true)
    (h2 : infoSeq (c + 1) = "inactive") :
    check_active infoSeq jobsSeq b (c, j) =
      (Except.error UnitError.inactiveNoJobs, (c + 2, j + 1)) := by
  simp [check_active, h, hj, h2]

/-- Skipping activating polls inside the retry loop: n polls reading
activating consume n units of budget and n info calls. -/
theorem check_active_skip (infoSeq jobsSeq : Nat → String) (n m j : Nat) (hm : n ≤ m)
    (h : ∀ k, k < n → infoSeq k = "activating") :
    retryAux (check_active infoSeq jobsSeq) m (0, j) =
      retryAux (check_active infoSeq jobsSeq) (m - n) (n, j) := by
  have := retryAux_skip (check_active infoSeq jobsSeq) n m (fun k => (k, j)) hm ?_
  · simpa using this
  · intro k hk
    exact check_active_activating infoSeq jobsSeq false k j (h k hk)

/-- Claim C3: wait_for_unit polls the unit state; after any run of
activating polls within the budget it returns normally as soon as a poll
reads active; it raises the reached-failed exception as soon as a poll
reads failed, well before the budget is exhausted (only n+1 polls are
made); and when a poll reads inactive while the jobs query says No jobs
and the re-read still says inactive, it raises the permanently-inactive
exception rather than retrying. -/
theorem wait_for_unit_behavior (infoSeq jobsSeq : Nat → String) (n : Nat)
    (hn : n ≤ 900) (hpre : ∀ k, k < n → infoSeq k = "activating") :
    (infoSeq n = "active" →
      wait_for_unit infoSeq jobsSeq = RetryResult.success (n + 1, 0)) ∧
    (infoSeq n = "failed" →
      wait_for_unit infoSeq jobsSeq =
        RetryResult.raised UnitError.reachedFailed (n + 1, 0)) ∧
    (infoSeq n = "inactive" → strContains (jobsSeq 0) "No jobs" = true →
      infoSeq (n + 1) = "inactive" →
      wait_for_unit infoSeq jobsSeq =
        RetryResult.raised UnitError.inactiveNoJobs (n + 2, 1)) := by
  refine ⟨fun ha => ?_, fun hf => ?_, fun hi hj hi2 => ?_⟩
  · rw [wait_for_unit, retry, check_active_skip infoSeq jobsSeq n 900 0 hn hpre]
    exact retryAux_any_true _ _ _ _
      (fun b => check_active_active infoSeq jobsSeq b n 0 ha)
  · rw [wait_for_unit, retry, check_active_skip infoSeq jobsSeq n 900 0 hn hpre]
    exact retryAux_any_raised _ _ _ _ _
      (fun b => check_active_failed infoSeq jobsSeq b n 0 hf)
  · rw [wait_for_unit, retry, check_active_skip infoSeq jobsSeq n 900 0 hn hpre]
    exact retryAux_any_raised _ _ _ _ _
      (fun b => check_active_inactive_nojobs infoSeq jobsSeq b n 0 hi hj hi2)

/-- Witness for C3: three concrete guests; one reporting active at once,
one reporting failed at once, one permanently inactive with no pending
jobs. -/
theorem wait_for_unit_behavior_witness :
    wait_for_unit (fun _ => "active") (fun _ => "") = RetryResult.success (1, 0) ∧
    wait_for_unit (fun _ => "failed") (fun _ => "") =
      RetryResult.raised UnitError.reachedFailed (1, 0) ∧
    wait_for_unit (fun _ => "inactive") (fun _ => "No jobs") =
      RetryResult.raised UnitError.inactiveNoJobs (2, 1) :=
  ⟨(wait_for_unit_behavior (fun _ => "active") (fun _ => "") 0 (by decide)
      (fun k hk => absurd hk (Nat.not_lt_zero k))).1 rfl,
   (wait_for_unit_behavior (fun _ => "failed") (fun _ => "") 0 (by decide)
      (fun k hk => absurd hk (Nat.not_lt_zero k))).2.1 rfl,
   (wait_for_unit_behavior (fun _ => "inactive") (fun _ => "No jobs") 0 (by decide)
      (fun k hk => absurd hk (Nat.not_lt_zero k))).2.2 rfl (by decide) rfl⟩

end TestDriver
